import Mathlib

/-!
# JPlotter: plot layout, axis rendering, data mapping and series rendering

A shallow embedding of `src/main.cpp`.

Conventions of the embedding

* `float` values are idealised as rationals (`ℚ`): unless it says otherwise, a
  statement below is a statement of exact rational arithmetic.  The section
  "Float32 arithmetic" gives binary32 rounding and the X-axis loop computed
  with it, to show where the exact statement and the program part.
* The rendering engine (Jovial) is not part of the program.  What the program
  asks of it is collected in `Engine`: the visible rectangle, text metrics,
  number formatting, the two font handles, the default text style, the window
  size, the approximate rectangle comparison and the F12 edge.
* Calls into the renderer that draw something are recorded, in program order,
  as a list of `DrawCall`.  A function that draws returns the calls it emitted.
* `World` carries the member `screen_rect`, plus a counter of the calls to
  `rendering::get_visable_rect` made so far (instrumentation only: no
  function of the program reads it).
-/

namespace JPlotter

/-! ## Data model -/

/-- Pair of floats. -/
structure Vector2 where
  x : ℚ
  y : ℚ
deriving DecidableEq

/-- Pair of ints. -/
structure Vector2i where
  x : Int
  y : Int
deriving DecidableEq

/-- Rectangle with four float members.  The plot code reads `(x, y)` as the
lower-left corner and `(w, h)` as the upper-right corner. -/
structure Rect2 where
  x : ℚ
  y : ℚ
  w : ℚ
  h : ℚ
deriving DecidableEq

/-- The value-initialised rectangle `{}`. -/
def Rect2.zero : Rect2 := ⟨0, 0, 0, 0⟩

/-- Modelled from the spec: `Rect2::expand` is engine code that is not in the
program; spec 4.1 step 1 uses `expand(-M)` as "V shrunk inward by M on all
sides" in the absolute-corner convention, so `expand a` moves the lower-left
corner by `-a` and the upper-right corner by `+a`. -/
def Rect2.expand (r : Rect2) (amount : ℚ) : Rect2 :=
  ⟨r.x - amount, r.y - amount, r.w + amount, r.h + amount⟩

/-- Segment between two points. -/
structure Line where
  a : Vector2
  b : Vector2
deriving DecidableEq

/-- Circle built as `Circle(radius, center)`. -/
structure Circle where
  radius : ℚ
  center : Vector2
deriving DecidableEq

/-- Colours: the named constants the program uses, and any other RGBA value. -/
inductive Color where
  | Black
  | White
  | Blue
  | Red
  | rgba (r g b a : Nat)
deriving DecidableEq

/-- Font handle: the asset it came from and its nominal size. -/
structure Font where
  name : String
  size : ℚ
deriving DecidableEq

/-- Text style passed to `draw_text` and `draw_vertical_text`. -/
structure TextDrawProps where
  font_size : ℚ
  color : Color
  z_index : Int
  effect : Nat
  fix_start_pos : Bool
deriving DecidableEq

/-- The two members of `rendering::TextureDrawProperties` the program sets. -/
structure TextureDrawProperties where
  color : Color
  z_index : Int
deriving DecidableEq

/-- One drawing call into the renderer. -/
inductive DrawCall where
  | line (l : Line) (thickness : ℚ) (color : Color)
  | circle (c : Circle) (segments : Nat) (color : Color)
  | rect2_outline (r : Rect2) (thickness : ℚ) (color : Color)
  | text (pos : Vector2) (text : String) (font : Font) (props : TextDrawProps)
  | char (effect : Nat) (c : Char) (char_index : Nat) (font : Font) (scale : ℚ)
      (line_start : Vector2) (pos : Vector2) (properties : TextureDrawProperties)
deriving DecidableEq

/-- What the program obtains from the engine. -/
structure Engine where
  /-- Result of `rendering::get_visable_rect()`. -/
  visable_rect : Rect2
  /-- The method `Rect2::is_equal_approx`. -/
  is_equal_approx : Rect2 → Rect2 → Bool
  /-- The function `measure_text(text, font)`. -/
  measure_text : String → Font → Vector2
  /-- The function `to_string` at a float argument. -/
  float_to_string : ℚ → String
  /-- The function `to_string` at an int argument. -/
  int_to_string : Int → String
  /-- The font `Fonts::Normal`. -/
  Normal : Font
  /-- The font `Fonts::Title`. -/
  Title : Font
  /-- The value-initialised `TextDrawProps` written `{}` in the program. -/
  text_defaults : TextDrawProps
  /-- Result of `Window::get_current_width()`. -/
  current_width : Int
  /-- Result of `Window::get_current_height()`. -/
  current_height : Int
  /-- Result of `Input::is_just_pressed(Actions::F12)` in this frame. -/
  f12_just_pressed : Bool

/-- State of the `World` node: the member `screen_rect`, and the number of
calls to `rendering::get_visable_rect` made so far. -/
structure World where
  screen_rect : Rect2
  visable_rect_queries : Nat
deriving DecidableEq

/-! ## Constants -/

def MARGINS : ℚ := 20
def LINE_WIDTH : ℚ := 2
def POINT_SIZE : ℚ := 5
def MAX_Y : ℚ := 100
def MIN_Y : ℚ := 0
def Y_SECTIONS : Nat := 20
def Y_LABEL : String := "Corn"
def MAX_X : ℚ := 50
def MIN_X : ℚ := 0
def X_SECTIONS : Nat := 50
def X_LABEL : String := "Shakes"
def TITLE : String := "Corn Half Life Experiment"

/-- The conversion `(int) f` of a float: truncation toward zero. -/
def float_to_int (f : ℚ) : Int :=
  if 0 ≤ f then ⌊f⌋ else ⌈f⌉

/-! ## Plot layout -/

/-- The method `World::get_screen_rect`: returns the cached rectangle unless it
compares approximately equal to `{}`, in which case the rectangle is derived
from the visible rectangle and stored. -/
def get_screen_rect (E : Engine) (W : World) : Rect2 × World :=
  if !E.is_equal_approx W.screen_rect Rect2.zero then
    (W.screen_rect, W)
  else
    let screen_rect := E.visable_rect
    let screen_rect := screen_rect.expand (-MARGINS)
    let left_pad := max (E.measure_text (E.float_to_string MAX_Y) E.Normal).x
      (E.measure_text (E.float_to_string MIN_Y) E.Normal).x
    let screen_rect := { screen_rect with x := screen_rect.x + left_pad }
    let title_size := E.measure_text TITLE E.Title
    let screen_rect := { screen_rect with h := screen_rect.h - (title_size.y + MARGINS) }
    let screen_rect := { screen_rect with y := screen_rect.y + (E.Title.size + MARGINS * 2) }
    (screen_rect, ⟨screen_rect, W.visable_rect_queries + 1⟩)

/-! ## Vertical text -/

/-- Modelled from the spec: the macro `JV_CORE_TODO` is engine code that is not
in the program; spec 7 and 9 say the reference aborts where it stands.  An
abort is the result `none`. -/
def JV_CORE_TODO {α : Type} : Option α := none

/-- The `while (*text)` loop of `draw_vertical_text`.  A C string is given by
the list of its characters before the terminating NUL, so the empty list is the
terminator.  The second component of a result is the final value of the local
`position`. -/
def draw_vertical_text_loop (effect : Nat) (font : Font) (scale : ℚ) (line_start : Vector2)
    (properties : TextureDrawProperties) :
    List Char → Nat → Vector2 → Option (List DrawCall × Vector2)
  | [], _, position => some ([], position)
  | c :: text, char_index, position =>
    if c = '\n' then JV_CORE_TODO
    else if c = '\t' then JV_CORE_TODO
    else
      let pos := position
      let call := DrawCall.char effect c char_index font scale line_start pos properties
      let position : Vector2 := { position with y := position.y - font.size }
      match draw_vertical_text_loop effect font scale line_start properties text
          (char_index + 1) position with
      | none => none
      | some (calls, last) => some (call :: calls, last)

/-- The function `draw_vertical_text`. -/
def draw_vertical_text (position : Vector2) (text : List Char) (font : Font)
    (props : TextDrawProps) : Option (List DrawCall × Vector2) :=
  if text = [] then some ([], position)
  else
    let font_size := props.font_size
    let color := props.color
    let z_index := props.z_index
    let font_size := if font_size = 0 then font.size else font_size
    let position : Vector2 := { position with y := position.y - font.size }
    let line_start := position
    let scale := font_size / font.size
    let properties : TextureDrawProperties := ⟨color, z_index⟩
    draw_vertical_text_loop props.effect font scale line_start properties text 0 position

/-! ## Axis rendering -/

/-- The `for` loop of `draw_y_labels`, from index `i` with the accumulator
`current_amount`. -/
def draw_y_labels_loop (E : Engine) (screen_rect : Rect2) (section_width section_amount : ℚ)
    (i : Nat) (current_amount : ℚ) : List DrawCall :=
  if i ≤ Y_SECTIONS then
    let height := screen_rect.y + section_width * (i : ℚ)
    let line : Line := ⟨⟨screen_rect.x - MARGINS / 2, height⟩, ⟨screen_rect.x, height⟩⟩
    DrawCall.line line LINE_WIDTH Color.Black ::
    DrawCall.text ⟨screen_rect.x - MARGINS * 2, height - E.Normal.size / 4⟩
      (E.int_to_string (float_to_int current_amount)) E.Normal E.text_defaults ::
    draw_y_labels_loop E screen_rect section_width section_amount (i + 1)
      (current_amount + section_amount)
  else []
termination_by Y_SECTIONS + 1 - i

/-- The method `World::draw_y_labels`. -/
def draw_y_labels (E : Engine) (W : World) : Option (List DrawCall × World) :=
  let (screen_rect, W) := get_screen_rect E W
  let section_width := (screen_rect.h - screen_rect.y) / (Y_SECTIONS : ℚ)
  let section_amount := (MAX_Y - MIN_Y) / (Y_SECTIONS : ℚ)
  let current_amount := MIN_Y
  let ticks := draw_y_labels_loop E screen_rect section_width section_amount 0 current_amount
  let y_label_size := (E.measure_text Y_LABEL E.Title).x
  let y_label_pos : Vector2 := ⟨MARGINS, (E.current_height : ℚ) / 2 + y_label_size / 2⟩
  match draw_vertical_text y_label_pos Y_LABEL.toList E.Title E.text_defaults with
  | none => none
  | some (glyphs, _) => some (ticks ++ glyphs, W)

/-- The `for` loop of `draw_x_labels`, from index `i` with the accumulator
`current_amount`. -/
def draw_x_labels_loop (E : Engine) (screen_rect : Rect2) (section_width section_amount : ℚ)
    (i : Nat) (current_amount : ℚ) : List DrawCall :=
  if i ≤ X_SECTIONS then
    let width := screen_rect.x + section_width * (i : ℚ)
    let line : Line := ⟨⟨width, screen_rect.y - MARGINS / 2⟩, ⟨width, screen_rect.y⟩⟩
    let label := E.int_to_string (float_to_int current_amount)
    let label_width := (E.measure_text label E.Normal).x
    DrawCall.line line LINE_WIDTH Color.Black ::
    DrawCall.text ⟨width - label_width / (3 / 2), screen_rect.y - MARGINS * (3 / 2)⟩
      label E.Normal { E.text_defaults with fix_start_pos := true } ::
    draw_x_labels_loop E screen_rect section_width section_amount (i + 1)
      (current_amount + section_amount)
  else []
termination_by X_SECTIONS + 1 - i

/-- The method `World::draw_x_labels`. -/
def draw_x_labels (E : Engine) (W : World) : List DrawCall × World :=
  let (screen_rect, W) := get_screen_rect E W
  let section_width := (screen_rect.w - screen_rect.x) / (X_SECTIONS : ℚ)
  let section_amount := (MAX_X - MIN_X) / (X_SECTIONS : ℚ)
  let current_amount := MIN_X
  let ticks := draw_x_labels_loop E screen_rect section_width section_amount 0 current_amount
  let size := (E.measure_text X_LABEL E.Title).x
  let x_label_pos : Vector2 := ⟨((E.current_width : ℚ) - size) / 2, MARGINS⟩
  (ticks ++ [DrawCall.text x_label_pos X_LABEL E.Title E.text_defaults], W)

/-- The method `World::draw_title`. -/
def draw_title (E : Engine) (W : World) : List DrawCall × World :=
  let (screen_rect, W) := get_screen_rect E W
  let size := (E.measure_text TITLE E.Title).x
  ([DrawCall.text ⟨((E.current_width : ℚ) - size) / 2, screen_rect.h + MARGINS⟩ TITLE E.Title
      E.text_defaults,
    DrawCall.rect2_outline screen_rect LINE_WIDTH Color.Black], W)

/-- The method `World::draw_graph`. -/
def draw_graph (E : Engine) (W : World) : Option (List DrawCall × World) :=
  let W : World := { W with screen_rect := Rect2.zero }
  let (title, W) := draw_title E W
  let (xs, W) := draw_x_labels E W
  match draw_y_labels E W with
  | none => none
  | some (ys, W) => some (title ++ xs ++ ys, W)

/-! ## Data mapping and series rendering -/

/-- The method `World::point_to_world`. -/
def point_to_world (E : Engine) (W : World) (point : Vector2i) : Vector2 × World :=
  let (screen_rect, W) := get_screen_rect E W
  let section_height := (screen_rect.h - screen_rect.y) / MAX_Y
  let section_width := (screen_rect.w - screen_rect.x) / MAX_X
  (⟨screen_rect.x + (point.x : ℚ) * section_width,
    screen_rect.y + (point.y : ℚ) * section_height⟩, W)

/-- The `for` loop of `plot`, from index `i`. -/
def plot_loop (E : Engine) (points : List Vector2i) (color : Color) (i : Nat) (W : World) :
    List DrawCall × World :=
  if h : i < points.length then
    let (center, W) := point_to_world E W points[i]
    let circle := DrawCall.circle ⟨POINT_SIZE, center⟩ 16 color
    if h1 : i ≠ points.length - 1 then
      have h2 : i + 1 < points.length := by omega
      let (a, W) := point_to_world E W points[i]
      let (b, W) := point_to_world E W points[i + 1]
      let (rest, W) := plot_loop E points color (i + 1) W
      (circle :: DrawCall.line ⟨a, b⟩ LINE_WIDTH color :: rest, W)
    else
      let (rest, W) := plot_loop E points color (i + 1) W
      (circle :: rest, W)
  else ([], W)
termination_by points.length - i

/-- The method `World::plot`. -/
def plot (E : Engine) (W : World) (points : List Vector2i) (color : Color) :
    List DrawCall × World :=
  plot_loop E points color 0 W

/-! ## Frame driver -/

/-- The static array `data` of `update`. -/
def data : List Int :=
  [100, 94, 87, 82, 77, 73, 69, 64, 59, 56,
   48, 43, 38, 35, 30, 28, 25, 21, 19, 17,
   14, 12, 10, 10, 9, 9, 7, 6, 5, 4,
   4, 4, 4, 4, 4, 3, 3, 3, 3, 3, 3,
   2, 2, 1, 1, 1, 1, 1, 1, 1, 0]

/-- First series of `update`: the points `{i, data[i]}`. -/
def series_A : List Vector2i :=
  (List.range data.length).map fun (i : Nat) => ⟨(i : Int), data.getD i 0⟩

/-- Second series of `update`: the points `{i, 100 - data[i]}`. -/
def series_B : List Vector2i :=
  (List.range data.length).map fun (i : Nat) => ⟨(i : Int), 100 - data.getD i 0⟩

/-- Outcome of one frame: the draw calls, the screenshot requests, the state. -/
structure Frame where
  calls : List DrawCall
  screenshots : List String
  world : World

/-- The method `World::update`. -/
def update (E : Engine) (W : World) : Option Frame :=
  match draw_graph E W with
  | none => none
  | some (graph, W) =>
    let (blue, W) := plot E W series_A Color.Blue
    let (red, W) := plot E W series_B Color.Red
    let shots := if E.f12_just_pressed then ["../plot.png"] else []
    some ⟨graph ++ blue ++ red, shots, W⟩

/-! ## Closed forms used to state the properties -/

/-- Rectangle that `get_screen_rect` derives from the visible rectangle when it
recomputes (spec 4.1, `compute_plot_rect`). -/
def compute_plot_rect (E : Engine) : Rect2 :=
  ⟨E.visable_rect.x + MARGINS +
      max (E.measure_text (E.float_to_string MAX_Y) E.Normal).x
        (E.measure_text (E.float_to_string MIN_Y) E.Normal).x,
    E.visable_rect.y + MARGINS + (E.Title.size + 2 * MARGINS),
    E.visable_rect.w - MARGINS,
    E.visable_rect.h - MARGINS - ((E.measure_text TITLE E.Title).y + MARGINS)⟩

/-- Number of recomputations one call of `get_screen_rect` performs when the
cached rectangle is `s`. -/
def recomputes (E : Engine) (s : Rect2) : Nat :=
  if E.is_equal_approx s Rect2.zero then 1 else 0

/-- The pixel position of a data point inside the rectangle `r` (spec 4.4). -/
def point_to_pixel (r : Rect2) (p : Vector2i) : Vector2 :=
  ⟨r.x + (p.x : ℚ) * ((r.w - r.x) / MAX_X), r.y + (p.y : ℚ) * ((r.h - r.y) / MAX_Y)⟩

/-- The segments among a list of draw calls, in order. -/
def tick_lines (calls : List DrawCall) : List Line :=
  calls.filterMap fun c => match c with
    | DrawCall.line l _ _ => some l
    | _ => none

/-- The strings of the text runs among a list of draw calls, in order. -/
def text_labels (calls : List DrawCall) : List String :=
  calls.filterMap fun c => match c with
    | DrawCall.text _ s _ _ => some s
    | _ => none

/-- A filled-circle call. -/
def DrawCall.isCircle : DrawCall → Bool
  | DrawCall.circle _ _ _ => true
  | _ => false

/-- A line-segment call. -/
def DrawCall.isLine : DrawCall → Bool
  | DrawCall.line _ _ _ => true
  | _ => false

/-- The rectangle `get_screen_rect` returns when the cached one is `s`. -/
def plot_rect (E : Engine) (s : Rect2) : Rect2 :=
  if E.is_equal_approx s Rect2.zero then compute_plot_rect E else s

/-- The calls of iteration `i` of the Y-axis loop on the rectangle `r`: the tick
segment at height `y + i * (h - y) / Y_SECTIONS`, then its label. -/
def y_tick_calls (E : Engine) (r : Rect2) (i : Nat) : List DrawCall :=
  [DrawCall.line
      ⟨⟨r.x - MARGINS / 2, r.y + (i : ℚ) * (r.h - r.y) / (Y_SECTIONS : ℚ)⟩,
       ⟨r.x, r.y + (i : ℚ) * (r.h - r.y) / (Y_SECTIONS : ℚ)⟩⟩ LINE_WIDTH Color.Black,
   DrawCall.text
      ⟨r.x - 2 * MARGINS, r.y + (i : ℚ) * (r.h - r.y) / (Y_SECTIONS : ℚ) - E.Normal.size / 4⟩
      (E.int_to_string (5 * (i : Int))) E.Normal E.text_defaults]

/-- The calls of iteration `i` of the X-axis loop on the rectangle `r`: the tick
segment at abscissa `x + i * (w - x) / X_SECTIONS`, then its label. -/
def x_tick_calls (E : Engine) (r : Rect2) (i : Nat) : List DrawCall :=
  [DrawCall.line
      ⟨⟨r.x + (i : ℚ) * (r.w - r.x) / (X_SECTIONS : ℚ), r.y - MARGINS / 2⟩,
       ⟨r.x + (i : ℚ) * (r.w - r.x) / (X_SECTIONS : ℚ), r.y⟩⟩ LINE_WIDTH Color.Black,
   DrawCall.text
      ⟨r.x + (i : ℚ) * (r.w - r.x) / (X_SECTIONS : ℚ) -
          (E.measure_text (E.int_to_string (i : Int)) E.Normal).x / (3 / 2),
        r.y - MARGINS * (3 / 2)⟩
      (E.int_to_string (i : Int)) E.Normal { E.text_defaults with fix_start_pos := true }]

/-- The glyph calls of the vertical Y-axis title. -/
def y_title_calls (E : Engine) : List DrawCall :=
  Y_LABEL.toList.enum.map fun ic =>
    DrawCall.char E.text_defaults.effect ic.2 ic.1 E.Title
      ((if E.text_defaults.font_size = 0 then E.Title.size else E.text_defaults.font_size) /
        E.Title.size)
      ⟨MARGINS, (E.current_height : ℚ) / 2 + (E.measure_text Y_LABEL E.Title).x / 2 -
        E.Title.size⟩
      ⟨MARGINS, (E.current_height : ℚ) / 2 + (E.measure_text Y_LABEL E.Title).x / 2 -
        E.Title.size - (ic.1 : ℚ) * E.Title.size⟩
      ⟨E.text_defaults.color, E.text_defaults.z_index⟩

/-- The title text and the outline of the rectangle `r`. -/
def title_calls (E : Engine) (r : Rect2) : List DrawCall :=
  [DrawCall.text ⟨((E.current_width : ℚ) - (E.measure_text TITLE E.Title).x) / 2, r.h + MARGINS⟩
      TITLE E.Title E.text_defaults,
   DrawCall.rect2_outline r LINE_WIDTH Color.Black]

/-- All calls of the X axis on the rectangle `r`: ticks with labels, then the
axis title. -/
def x_axis_calls (E : Engine) (r : Rect2) : List DrawCall :=
  (List.range (X_SECTIONS + 1)).flatMap (x_tick_calls E r) ++
    [DrawCall.text ⟨((E.current_width : ℚ) - (E.measure_text X_LABEL E.Title).x) / 2, MARGINS⟩
      X_LABEL E.Title E.text_defaults]

/-- All calls of the Y axis on the rectangle `r`: ticks with labels, then the
glyphs of the vertical axis title. -/
def y_axis_calls (E : Engine) (r : Rect2) : List DrawCall :=
  (List.range (Y_SECTIONS + 1)).flatMap (y_tick_calls E r) ++ y_title_calls E

/-- The calls of iteration `i` of the series loop, with `f` the mapping from
data points to pixels: the marker of point `i`, then, unless `i` is the last
index, the segment to point `i + 1`. -/
def series_step (f : Vector2i → Vector2) (points : List Vector2i) (color : Color) (i : Nat) :
    List DrawCall :=
  DrawCall.circle ⟨POINT_SIZE, f (points.getD i ⟨0, 0⟩)⟩ 16 color ::
    if i + 1 < points.length then
      [DrawCall.line ⟨f (points.getD i ⟨0, 0⟩), f (points.getD (i + 1) ⟨0, 0⟩)⟩ LINE_WIDTH color]
    else []

/-- All calls of one series. -/
def series_calls (f : Vector2i → Vector2) (points : List Vector2i) (color : Color) :
    List DrawCall :=
  (List.range points.length).flatMap (series_step f points color)

/-- A sample engine: visible rectangle `(0, 0, 1280, 720)`, every text three
font sizes wide and one font size high, exact comparison of rectangles. -/
def sample_engine : Engine where
  visable_rect := ⟨0, 0, 1280, 720⟩
  is_equal_approx := fun a b => decide (a = b)
  measure_text := fun _ f => ⟨3 * f.size, f.size⟩
  float_to_string := fun q => toString ⌊q⌋
  int_to_string := fun n => toString n
  Normal := ⟨"jet_brains.ttf", 18⟩
  Title := ⟨"jet_brains.ttf", 25⟩
  text_defaults := ⟨0, Color.Black, 0, 0, false⟩
  current_width := 1280
  current_height := 720
  f12_just_pressed := false

/-- The sample engine with the visible rectangle `(-74, -85, 20, 65)`, from
which `get_screen_rect` derives the rectangle `(0, 0, 0, 0)`. -/
def degenerate_engine : Engine :=
  { sample_engine with visable_rect := ⟨-74, -85, 20, 65⟩ }

/-! ## Float32 arithmetic

The definitions above compute in exact rational arithmetic.  The definitions
of this section compute as the program does, in IEEE 754 binary32 with
rounding to nearest, ties to even.  A finite float is the rational it denotes;
infinities and NaN are not represented, so a result of magnitude `2 ^ 128` or
more is outside this model. -/

/-- Nearest integer, ties to the even one. -/
def round_half_even (q : ℚ) : Int :=
  if q - ⌊q⌋ < 1 / 2 then ⌊q⌋
  else if 1 / 2 < q - ⌊q⌋ then ⌊q⌋ + 1
  else if ⌊q⌋ % 2 = 0 then ⌊q⌋ else ⌊q⌋ + 1

/-- Exponent of the spacing of the float32 values around `q`: 23 below the
binary exponent of `q`, which is at least `-126` (subnormal range). -/
def ulp_exponent (q : ℚ) : Int :=
  max (Int.log 2 |q|) (-126) - 23

/-- The float32 value nearest to `q`. -/
def round32 (q : ℚ) : ℚ :=
  (round_half_even (q / (2 : ℚ) ^ ulp_exponent q) : ℚ) * (2 : ℚ) ^ ulp_exponent q

/-- Float32 addition. -/
def f32_add (a b : ℚ) : ℚ := round32 (a + b)

/-- Float32 subtraction. -/
def f32_sub (a b : ℚ) : ℚ := round32 (a - b)

/-- Float32 multiplication. -/
def f32_mul (a b : ℚ) : ℚ := round32 (a * b)

/-- Float32 division. -/
def f32_div (a b : ℚ) : ℚ := round32 (a / b)

/-- The conversion `(float) i` of an int. -/
def int_to_f32 (i : Int) : ℚ := round32 (i : ℚ)

/-- The `for` loop of `draw_x_labels` in float32, from index `i` with the
accumulator `current_amount`. -/
def draw_x_labels_loop_f32 (E : Engine) (screen_rect : Rect2)
    (section_width section_amount : ℚ) (i : Nat) (current_amount : ℚ) : List DrawCall :=
  if i ≤ X_SECTIONS then
    let width := f32_add screen_rect.x (f32_mul section_width (int_to_f32 (i : Int)))
    let line : Line :=
      ⟨⟨width, f32_sub screen_rect.y (f32_div MARGINS 2)⟩, ⟨width, screen_rect.y⟩⟩
    let label := E.int_to_string (float_to_int current_amount)
    let label_width := (E.measure_text label E.Normal).x
    DrawCall.line line LINE_WIDTH Color.Black ::
    DrawCall.text
      ⟨f32_sub width (f32_div label_width (3 / 2)), f32_sub screen_rect.y (f32_mul MARGINS (3 / 2))⟩
      label E.Normal { E.text_defaults with fix_start_pos := true } ::
    draw_x_labels_loop_f32 E screen_rect section_width section_amount (i + 1)
      (f32_add current_amount section_amount)
  else []
termination_by X_SECTIONS + 1 - i

/-- The statements of `draw_x_labels` that follow the call of
`get_screen_rect`, in float32, with `screen_rect` the rectangle that call
returned. -/
def draw_x_labels_f32 (E : Engine) (screen_rect : Rect2) : List DrawCall :=
  let section_width := f32_div (f32_sub screen_rect.w screen_rect.x) (int_to_f32 (X_SECTIONS : Int))
  let section_amount := f32_div (f32_sub MAX_X MIN_X) (int_to_f32 (X_SECTIONS : Int))
  let current_amount := MIN_X
  let ticks :=
    draw_x_labels_loop_f32 E screen_rect section_width section_amount 0 current_amount
  let size := (E.measure_text X_LABEL E.Title).x
  let x_label_pos : Vector2 :=
    ⟨f32_div (f32_sub (int_to_f32 E.current_width) size) 2, MARGINS⟩
  ticks ++ [DrawCall.text x_label_pos X_LABEL E.Title E.text_defaults]

/-- The sample engine with the visible rectangle `(0, 0, 905, 645)`, whose
plot rectangle is `(74, 85, 885, 580)`. -/
def narrow_engine : Engine :=
  { sample_engine with
    visable_rect := ⟨0, 0, 905, 645⟩
    current_width := 905
    current_height := 645 }

/-! ## Auxiliary lemmas -/

theorem get_screen_rect_miss (E : Engine) (W : World)
    (h : E.is_equal_approx W.screen_rect Rect2.zero = true) :
    get_screen_rect E W =
      (compute_plot_rect E, ⟨compute_plot_rect E, W.visable_rect_queries + 1⟩) := by
  have e : compute_plot_rect E =
      ⟨E.visable_rect.x - -MARGINS +
        max (E.measure_text (E.float_to_string MAX_Y) E.Normal).x
          (E.measure_text (E.float_to_string MIN_Y) E.Normal).x,
       E.visable_rect.y - -MARGINS + (E.Title.size + MARGINS * 2),
       E.visable_rect.w + -MARGINS,
       E.visable_rect.h + -MARGINS - ((E.measure_text TITLE E.Title).y + MARGINS)⟩ := by
    simp only [compute_plot_rect, Rect2.mk.injEq]
    refine ⟨by ring, by ring, by ring, by ring⟩
  simp only [get_screen_rect, h, Bool.not_true, Bool.false_eq_true, if_false, Rect2.expand, e]

theorem get_screen_rect_hit (E : Engine) (W : World)
    (h : E.is_equal_approx W.screen_rect Rect2.zero = false) :
    get_screen_rect E W = (W.screen_rect, W) := by
  simp [get_screen_rect, h]

theorem get_screen_rect_eq (E : Engine) (W : World) :
    get_screen_rect E W =
      (plot_rect E W.screen_rect,
        ⟨plot_rect E W.screen_rect, W.visable_rect_queries + recomputes E W.screen_rect⟩) := by
  cases h : E.is_equal_approx W.screen_rect Rect2.zero
  · rw [get_screen_rect_hit E W h]; simp [plot_rect, recomputes, h]
  · rw [get_screen_rect_miss E W h]; simp [plot_rect, recomputes, h]

theorem plot_rect_idem (E : Engine) (s : Rect2) :
    plot_rect E (plot_rect E s) = plot_rect E s := by
  cases h : E.is_equal_approx s Rect2.zero
  · simp [plot_rect, h]
  · cases h1 : E.is_equal_approx (compute_plot_rect E) Rect2.zero <;> simp [plot_rect, h, h1]

theorem get_screen_rect_fst (E : Engine) (W : World) :
    (get_screen_rect E W).1 = plot_rect E W.screen_rect := by
  rw [get_screen_rect_eq]

theorem float_to_int_intCast (n : Int) : float_to_int (n : ℚ) = n := by
  unfold float_to_int
  split <;> simp

theorem draw_y_labels_loop_eq (E : Engine) (r : Rect2) (sw sa c0 : ℚ) :
    ∀ k i : Nat, i + k = Y_SECTIONS + 1 →
      draw_y_labels_loop E r sw sa i (c0 + (i : ℚ) * sa) =
        (List.range' i k).flatMap fun j =>
          [DrawCall.line ⟨⟨r.x - MARGINS / 2, r.y + sw * (j : ℚ)⟩, ⟨r.x, r.y + sw * (j : ℚ)⟩⟩
              LINE_WIDTH Color.Black,
           DrawCall.text ⟨r.x - MARGINS * 2, r.y + sw * (j : ℚ) - E.Normal.size / 4⟩
              (E.int_to_string (float_to_int (c0 + (j : ℚ) * sa))) E.Normal E.text_defaults] := by
  intro k
  induction k with
  | zero =>
    intro i h
    rw [draw_y_labels_loop]
    have hi : ¬ i ≤ Y_SECTIONS := by omega
    simp [hi]
  | succ k ih =>
    intro i h
    rw [draw_y_labels_loop]
    have hi : i ≤ Y_SECTIONS := by omega
    have e : c0 + (i : ℚ) * sa + sa = c0 + ((i + 1 : ℕ) : ℚ) * sa := by push_cast; ring
    rw [e, ih (i + 1) (by omega)]
    simp [hi, List.range'_succ, List.flatMap_cons]

theorem draw_x_labels_loop_eq (E : Engine) (r : Rect2) (sw sa c0 : ℚ) :
    ∀ k i : Nat, i + k = X_SECTIONS + 1 →
      draw_x_labels_loop E r sw sa i (c0 + (i : ℚ) * sa) =
        (List.range' i k).flatMap fun j =>
          [DrawCall.line ⟨⟨r.x + sw * (j : ℚ), r.y - MARGINS / 2⟩, ⟨r.x + sw * (j : ℚ), r.y⟩⟩
              LINE_WIDTH Color.Black,
           DrawCall.text
              ⟨r.x + sw * (j : ℚ) -
                  (E.measure_text (E.int_to_string (float_to_int (c0 + (j : ℚ) * sa)))
                    E.Normal).x / (3 / 2),
                r.y - MARGINS * (3 / 2)⟩
              (E.int_to_string (float_to_int (c0 + (j : ℚ) * sa))) E.Normal
              { E.text_defaults with fix_start_pos := true }] := by
  intro k
  induction k with
  | zero =>
    intro i h
    rw [draw_x_labels_loop]
    have hi : ¬ i ≤ X_SECTIONS := by omega
    simp [hi]
  | succ k ih =>
    intro i h
    rw [draw_x_labels_loop]
    have hi : i ≤ X_SECTIONS := by omega
    have e : c0 + (i : ℚ) * sa + sa = c0 + ((i + 1 : ℕ) : ℚ) * sa := by push_cast; ring
    rw [e, ih (i + 1) (by omega)]
    simp [hi, List.range'_succ, List.flatMap_cons]

theorem y_label_value (j : Nat) :
    float_to_int (MIN_Y + (j : ℚ) * ((MAX_Y - MIN_Y) / (Y_SECTIONS : ℚ))) = 5 * (j : Int) := by
  have e : MIN_Y + (j : ℚ) * ((MAX_Y - MIN_Y) / (Y_SECTIONS : ℚ)) = ((5 * (j : Int) : Int) : ℚ) := by
    simp only [MIN_Y, MAX_Y, Y_SECTIONS]
    push_cast
    ring
  rw [e, float_to_int_intCast]

theorem x_label_value (j : Nat) :
    float_to_int (MIN_X + (j : ℚ) * ((MAX_X - MIN_X) / (X_SECTIONS : ℚ))) = (j : Int) := by
  have e : MIN_X + (j : ℚ) * ((MAX_X - MIN_X) / (X_SECTIONS : ℚ)) = (((j : Int) : Int) : ℚ) := by
    simp only [MIN_X, MAX_X, X_SECTIONS]
    push_cast
    ring
  rw [e, float_to_int_intCast]

theorem y_ticks_eq (E : Engine) (r : Rect2) :
    draw_y_labels_loop E r ((r.h - r.y) / (Y_SECTIONS : ℚ)) ((MAX_Y - MIN_Y) / (Y_SECTIONS : ℚ))
        0 MIN_Y =
      (List.range (Y_SECTIONS + 1)).flatMap (y_tick_calls E r) := by
  have h := draw_y_labels_loop_eq E r ((r.h - r.y) / (Y_SECTIONS : ℚ))
    ((MAX_Y - MIN_Y) / (Y_SECTIONS : ℚ)) MIN_Y (Y_SECTIONS + 1) 0 (by omega)
  simp only [Nat.cast_zero, zero_mul, add_zero] at h
  rw [h, List.range_eq_range']
  congr 1
  funext j
  have e1 : r.y + (r.h - r.y) / (Y_SECTIONS : ℚ) * (j : ℚ) =
      r.y + (j : ℚ) * (r.h - r.y) / (Y_SECTIONS : ℚ) := by ring
  have e2 : MARGINS * 2 = 2 * MARGINS := by ring
  rw [y_label_value, e1, e2]
  rfl

theorem x_ticks_eq (E : Engine) (r : Rect2) :
    draw_x_labels_loop E r ((r.w - r.x) / (X_SECTIONS : ℚ)) ((MAX_X - MIN_X) / (X_SECTIONS : ℚ))
        0 MIN_X =
      (List.range (X_SECTIONS + 1)).flatMap (x_tick_calls E r) := by
  have h := draw_x_labels_loop_eq E r ((r.w - r.x) / (X_SECTIONS : ℚ))
    ((MAX_X - MIN_X) / (X_SECTIONS : ℚ)) MIN_X (X_SECTIONS + 1) 0 (by omega)
  simp only [Nat.cast_zero, zero_mul, add_zero] at h
  rw [h, List.range_eq_range']
  congr 1
  funext j
  have e1 : r.x + (r.w - r.x) / (X_SECTIONS : ℚ) * (j : ℚ) =
      r.x + (j : ℚ) * (r.w - r.x) / (X_SECTIONS : ℚ) := by ring
  rw [x_label_value, e1]
  rfl

theorem draw_vertical_text_loop_eq (effect : Nat) (font : Font) (scale : ℚ)
    (line_start : Vector2) (properties : TextureDrawProperties) :
    ∀ (text : List Char) (n : Nat) (p : Vector2), (∀ c ∈ text, c ≠ '\n' ∧ c ≠ '\t') →
      draw_vertical_text_loop effect font scale line_start properties text n p =
        some ((text.enumFrom n).map (fun ic =>
            DrawCall.char effect ic.2 ic.1 font scale line_start
              ⟨p.x, p.y - ((ic.1 : ℚ) - (n : ℚ)) * font.size⟩ properties),
          ⟨p.x, p.y - (text.length : ℚ) * font.size⟩) := by
  intro text
  induction text with
  | nil => intro n p _; simp [draw_vertical_text_loop]
  | cons c text ih =>
    intro n p h
    have hc := h c (List.mem_cons_self c text)
    have ht : ∀ d ∈ text, d ≠ '\n' ∧ d ≠ '\t' := fun d hd => h d (List.mem_cons_of_mem c hd)
    simp only [draw_vertical_text_loop, hc.1, hc.2, if_false, ih (n + 1) _ ht, List.enumFrom_cons,
      List.map_cons, List.length_cons]
    congr 2
    · congr 1
      · simp
      · apply List.map_congr_left
        intro ic _
        congr 2
        push_cast
        ring
    · congr 1
      push_cast
      ring

theorem draw_vertical_text_eq (anchor : Vector2) (text : List Char) (font : Font)
    (props : TextDrawProps) (h : ∀ c ∈ text, c ≠ '\n' ∧ c ≠ '\t') :
    draw_vertical_text anchor text font props =
      some (text.enum.map (fun ic =>
          DrawCall.char props.effect ic.2 ic.1 font
            ((if props.font_size = 0 then font.size else props.font_size) / font.size)
            ⟨anchor.x, anchor.y - font.size⟩
            ⟨anchor.x, anchor.y - font.size - (ic.1 : ℚ) * font.size⟩
            ⟨props.color, props.z_index⟩),
        ⟨anchor.x, if text = [] then anchor.y
          else anchor.y - font.size - (text.length : ℚ) * font.size⟩) := by
  unfold draw_vertical_text
  by_cases ht : text = []
  · subst ht; simp [List.enum]
  · simp only [ht, if_false]
    rw [draw_vertical_text_loop_eq _ _ _ _ _ text 0 _ h]
    simp [List.enum]

theorem point_to_world_eq (E : Engine) (W : World) (p : Vector2i) :
    point_to_world E W p =
      (point_to_pixel (plot_rect E W.screen_rect) p,
        ⟨plot_rect E W.screen_rect, W.visable_rect_queries + recomputes E W.screen_rect⟩) := by
  simp only [point_to_world, get_screen_rect_eq, point_to_pixel]

theorem plot_loop_step (E : Engine) (points : List Vector2i) (color : Color) (i : Nat)
    (W : World) (hi : i < points.length) :
    plot_loop E points color i W =
      (series_step (point_to_pixel (plot_rect E W.screen_rect)) points color i ++
          (plot_loop E points color (i + 1)
            ⟨plot_rect E W.screen_rect, W.visable_rect_queries + recomputes E W.screen_rect +
              (if i + 1 < points.length then 2 else 0) *
                recomputes E (plot_rect E W.screen_rect)⟩).1,
        (plot_loop E points color (i + 1)
            ⟨plot_rect E W.screen_rect, W.visable_rect_queries + recomputes E W.screen_rect +
              (if i + 1 < points.length then 2 else 0) *
                recomputes E (plot_rect E W.screen_rect)⟩).2) := by
  rw [plot_loop]
  simp only [hi, dite_true, point_to_world_eq, plot_rect_idem]
  by_cases hn : i + 1 < points.length
  · have h1 : i ≠ points.length - 1 := by omega
    have e : ∀ q m : Nat, q + m + m = q + 2 * m := fun q m => by ring
    simp only [ne_eq, h1, not_false_eq_true, dite_true, hn, if_true, series_step,
      List.getD_eq_getElem, hi, List.cons_append, List.nil_append, add_assoc]
    simp only [← add_assoc, e]
  · have h1 : ¬ (i ≠ points.length - 1) := by omega
    simp only [h1, dite_false, hn, if_false, series_step, List.getD_eq_getElem, hi,
      List.cons_append, List.nil_append, zero_mul, add_zero]

theorem plot_loop_eq (E : Engine) (points : List Vector2i) (color : Color) :
    ∀ (k i : Nat) (W : World), i + k = points.length →
      plot_loop E points color i W =
        ((List.range' i k).flatMap
            (series_step (point_to_pixel (plot_rect E W.screen_rect)) points color),
          if k = 0 then W else
            ⟨plot_rect E W.screen_rect,
              W.visable_rect_queries + recomputes E W.screen_rect +
                (k - 1 + 2 * (k - 1)) * recomputes E (plot_rect E W.screen_rect)⟩) := by
  intro k
  induction k with
  | zero =>
    intro i W h
    rw [plot_loop]
    have hi : ¬ i < points.length := by omega
    simp [hi]
  | succ k ih =>
    intro i W h
    have hi : i < points.length := by omega
    rw [plot_loop_step E points color i W hi, ih (i + 1) _ (by omega)]
    simp only [plot_rect_idem, List.range'_succ, List.flatMap_cons, Prod.mk.injEq, true_and,
      Nat.add_one_ne_zero, if_false, Nat.add_sub_cancel]
    by_cases hk : k = 0
    · subst hk
      have hn : ¬ i + 1 < points.length := by omega
      simp [hn]
    · have hn : i + 1 < points.length := by omega
      have e : k + 2 * k = (k - 1 + 2 * (k - 1)) + 3 := by omega
      simp only [hk, hn, if_true, if_false, e, World.mk.injEq, true_and]
      ring

theorem plot_eq (E : Engine) (W : World) (points : List Vector2i) (color : Color) :
    plot E W points color =
      (series_calls (point_to_pixel (plot_rect E W.screen_rect)) points color,
        if points.length = 0 then W else
          ⟨plot_rect E W.screen_rect,
            W.visable_rect_queries + recomputes E W.screen_rect +
              (points.length - 1 + 2 * (points.length - 1)) *
                recomputes E (plot_rect E W.screen_rect)⟩) := by
  unfold plot series_calls
  rw [plot_loop_eq E points color points.length 0 W (by omega), List.range_eq_range']

theorem plot_calls_eq (E : Engine) (W : World) (points : List Vector2i) (color : Color) :
    (plot E W points color).1 =
      series_calls (fun p => (point_to_world E W p).1) points color := by
  rw [plot_eq]
  simp only [point_to_world_eq]

theorem draw_title_eq (E : Engine) (W : World) :
    draw_title E W =
      (title_calls E (plot_rect E W.screen_rect),
        ⟨plot_rect E W.screen_rect, W.visable_rect_queries + recomputes E W.screen_rect⟩) := by
  simp only [draw_title, get_screen_rect_eq, title_calls]

theorem draw_x_labels_eq (E : Engine) (W : World) :
    draw_x_labels E W =
      (x_axis_calls E (plot_rect E W.screen_rect),
        ⟨plot_rect E W.screen_rect, W.visable_rect_queries + recomputes E W.screen_rect⟩) := by
  simp only [draw_x_labels, get_screen_rect_eq, x_ticks_eq, x_axis_calls]

theorem y_label_chars : ∀ c ∈ Y_LABEL.toList, c ≠ '\n' ∧ c ≠ '\t' := by
  decide

theorem draw_y_labels_eq (E : Engine) (W : World) :
    draw_y_labels E W =
      some (y_axis_calls E (plot_rect E W.screen_rect),
        ⟨plot_rect E W.screen_rect, W.visable_rect_queries + recomputes E W.screen_rect⟩) := by
  simp only [draw_y_labels, get_screen_rect_eq, y_ticks_eq, y_axis_calls,
    draw_vertical_text_eq _ _ _ _ y_label_chars, y_title_calls]

theorem draw_graph_eq (E : Engine) (W : World) :
    draw_graph E W =
      some (title_calls E (plot_rect E Rect2.zero) ++ x_axis_calls E (plot_rect E Rect2.zero) ++
          y_axis_calls E (plot_rect E Rect2.zero),
        ⟨plot_rect E Rect2.zero, W.visable_rect_queries + recomputes E Rect2.zero +
          2 * recomputes E (plot_rect E Rect2.zero)⟩) := by
  simp only [draw_graph, draw_title_eq, draw_x_labels_eq, draw_y_labels_eq, plot_rect_idem,
    Option.some.injEq, Prod.mk.injEq, World.mk.injEq, true_and]
  ring

theorem series_A_length : series_A.length = 51 := by
  simp [series_A, data]

theorem series_B_length : series_B.length = 51 := by
  simp [series_B, data]

theorem update_eq (E : Engine) (W : World) :
    update E W =
      some ⟨title_calls E (plot_rect E Rect2.zero) ++ x_axis_calls E (plot_rect E Rect2.zero) ++
          y_axis_calls E (plot_rect E Rect2.zero) ++
          series_calls (point_to_pixel (plot_rect E Rect2.zero)) series_A Color.Blue ++
          series_calls (point_to_pixel (plot_rect E Rect2.zero)) series_B Color.Red,
        if E.f12_just_pressed then ["../plot.png"] else [],
        ⟨plot_rect E Rect2.zero, W.visable_rect_queries + recomputes E Rect2.zero +
          304 * recomputes E (plot_rect E Rect2.zero)⟩⟩ := by
  simp only [update, draw_graph_eq, plot_eq, plot_rect_idem, series_A_length, series_B_length,
    Option.some.injEq, Frame.mk.injEq, World.mk.injEq, true_and]
  norm_num
  simp only [plot_rect_idem, true_and]
  ring

theorem filterMap_flatMap_single {β : Type} (f : DrawCall → Option β) (g : Nat → List DrawCall)
    (k : Nat → β) (h : ∀ i, List.filterMap f (g i) = [k i]) (l : List Nat) :
    List.filterMap f (l.flatMap g) = l.map k := by
  induction l with
  | nil => rfl
  | cons a l ih => simp [List.flatMap_cons, List.filterMap_append, h, ih]

theorem y_axis_tick_lines (E : Engine) (r : Rect2) :
    tick_lines (y_axis_calls E r) =
      (List.range 21).map fun (i : Nat) =>
        (⟨⟨r.x - 10, r.y + (i : ℚ) * (r.h - r.y) / 20⟩,
          ⟨r.x, r.y + (i : ℚ) * (r.h - r.y) / 20⟩⟩ : Line) := by
  unfold tick_lines y_axis_calls
  rw [List.filterMap_append, filterMap_flatMap_single _ _
    (fun (i : Nat) => (⟨⟨r.x - 10, r.y + (i : ℚ) * (r.h - r.y) / 20⟩,
      ⟨r.x, r.y + (i : ℚ) * (r.h - r.y) / 20⟩⟩ : Line))]
  · simp [y_title_calls, List.filterMap_map, Function.comp_def, Y_SECTIONS]
  · intro i
    simp only [y_tick_calls, List.filterMap_cons, List.filterMap_nil, MARGINS, Y_SECTIONS]
    norm_num

theorem x_axis_tick_lines (E : Engine) (r : Rect2) :
    tick_lines (x_axis_calls E r) =
      (List.range 51).map fun (i : Nat) =>
        (⟨⟨r.x + (i : ℚ) * (r.w - r.x) / 50, r.y - 10⟩,
          ⟨r.x + (i : ℚ) * (r.w - r.x) / 50, r.y⟩⟩ : Line) := by
  unfold tick_lines x_axis_calls
  rw [List.filterMap_append, filterMap_flatMap_single _ _
    (fun (i : Nat) => (⟨⟨r.x + (i : ℚ) * (r.w - r.x) / 50, r.y - 10⟩,
      ⟨r.x + (i : ℚ) * (r.w - r.x) / 50, r.y⟩⟩ : Line))]
  · simp [X_SECTIONS]
  · intro i
    simp only [x_tick_calls, List.filterMap_cons, List.filterMap_nil, MARGINS, X_SECTIONS]
    norm_num

theorem y_axis_text_labels (E : Engine) (r : Rect2) :
    text_labels (y_axis_calls E r) =
      (List.range 21).map fun (i : Nat) => E.int_to_string (5 * (i : Int)) := by
  unfold text_labels y_axis_calls
  rw [List.filterMap_append, filterMap_flatMap_single _ _
    (fun (i : Nat) => E.int_to_string (5 * (i : Int)))]
  · simp [y_title_calls, List.filterMap_map, Function.comp_def, Y_SECTIONS]
  · intro i
    simp only [y_tick_calls, List.filterMap_cons, List.filterMap_nil]

theorem x_axis_text_labels (E : Engine) (r : Rect2) :
    text_labels (x_axis_calls E r) =
      (List.range 51).map (fun (i : Nat) => E.int_to_string (i : Int)) ++ [X_LABEL] := by
  unfold text_labels x_axis_calls
  rw [List.filterMap_append, filterMap_flatMap_single _ _
    (fun (i : Nat) => E.int_to_string (i : Int))]
  · simp [X_SECTIONS]
  · intro i
    simp only [x_tick_calls, List.filterMap_cons, List.filterMap_nil]

theorem series_counts (f : Vector2i → Vector2) (points : List Vector2i) (color : Color) :
    ∀ k i : Nat, i + k = points.length →
      (((List.range' i k).flatMap (series_step f points color)).filter
          DrawCall.isCircle).length = k ∧
        (((List.range' i k).flatMap (series_step f points color)).filter
          DrawCall.isLine).length = k - 1 ∧
        ((List.range' i k).flatMap (series_step f points color)).length = k + (k - 1) := by
  intro k
  induction k with
  | zero => intro i _; simp
  | succ k ih =>
    intro i h
    obtain ⟨h1, h2, h3⟩ := ih (i + 1) (by omega)
    by_cases hn : i + 1 < points.length
    · simp only [List.range'_succ, List.flatMap_cons, series_step, hn, if_true,
        List.cons_append, List.nil_append, List.filter_cons, DrawCall.isCircle, DrawCall.isLine,
        List.length_cons, h1, h2, h3, Bool.false_eq_true, if_false]
      refine ⟨trivial, ?_, ?_⟩ <;> omega
    · have hk : k = 0 := by omega
      subst hk
      simp [List.range'_succ, List.flatMap_cons, series_step, hn, DrawCall.isCircle,
        DrawCall.isLine]

theorem round_half_even_eq (q : ℚ) (n : Int) (h1 : (n : ℚ) - 1 / 2 < q)
    (h2 : q < (n : ℚ) + 1 / 2) : round_half_even q = n := by
  unfold round_half_even
  have hf := Int.floor_le q
  have hf2 := Int.lt_floor_add_one q
  by_cases hc : q - ⌊q⌋ < 1 / 2
  · rw [if_pos hc]
    have a1 : ((⌊q⌋ : Int) : ℚ) < ((n + 1 : Int) : ℚ) := by push_cast; linarith
    have a2 : (n : ℚ) < ((⌊q⌋ + 1 : Int) : ℚ) := by push_cast; linarith
    have b1 : ⌊q⌋ < n + 1 := Int.cast_lt.mp a1
    have b2 : n < ⌊q⌋ + 1 := Int.cast_lt.mp a2
    exact le_antisymm (Int.lt_add_one_iff.mp b1) (Int.lt_add_one_iff.mp b2)
  · rw [if_neg hc]
    have hc1 : 1 / 2 ≤ q - ⌊q⌋ := not_lt.mp hc
    have a1 : ((⌊q⌋ : Int) : ℚ) < ((n : Int) : ℚ) := by linarith
    have a2 : (n : ℚ) < ((⌊q⌋ + 1 + 1 : Int) : ℚ) := by push_cast; linarith
    have b1 : ⌊q⌋ < n := Int.cast_lt.mp a1
    have b2 : n < ⌊q⌋ + 1 + 1 := Int.cast_lt.mp a2
    have hn : ⌊q⌋ + 1 = n := le_antisymm b1 (Int.lt_add_one_iff.mp b2)
    have hh : 1 / 2 < q - ⌊q⌋ := by
      have : ((⌊q⌋ : Int) : ℚ) + 1 = (n : ℚ) := by exact_mod_cast hn
      linarith
    rw [if_pos hh, hn]

theorem round32_eq (q : ℚ) (e n : Int) (hq : 0 < q) (he1 : (2 : ℚ) ^ e ≤ q)
    (he2 : q < (2 : ℚ) ^ (e + 1)) (hE : -126 ≤ e)
    (h1 : ((n : ℚ) - 1 / 2) * (2 : ℚ) ^ (e - 23) < q)
    (h2 : q < ((n : ℚ) + 1 / 2) * (2 : ℚ) ^ (e - 23)) :
    round32 q = (n : ℚ) * (2 : ℚ) ^ (e - 23) := by
  have hlog : Int.log 2 |q| = e := by
    rw [abs_of_pos hq]
    apply le_antisymm
    · have := (Int.lt_zpow_iff_log_lt (b := 2) (by norm_num) hq).mp he2
      omega
    · exact (Int.zpow_le_iff_le_log (b := 2) (by norm_num) hq).mp he1
  have hu : ulp_exponent q = e - 23 := by
    unfold ulp_exponent
    rw [hlog, max_eq_left hE]
  have hp : (0 : ℚ) < (2 : ℚ) ^ (e - 23) := by positivity
  unfold round32
  rw [hu, round_half_even_eq _ n]
  · rw [lt_div_iff₀ hp]; exact h1
  · rw [div_lt_iff₀ hp]; exact h2

theorem round32_zero : round32 0 = 0 := by
  simp [round32, round_half_even]

theorem round32_10 : round32 10 = 10 := by
  rw [round32_eq 10 3 10485760 (by norm_num) (by norm_num) (by norm_num) (by norm_num)
    (by norm_num) (by norm_num)]
  norm_num

theorem round32_50 : round32 50 = 50 := by
  rw [round32_eq 50 5 13107200 (by norm_num) (by norm_num) (by norm_num) (by norm_num)
    (by norm_num) (by norm_num)]
  norm_num

theorem round32_74 : round32 74 = 74 := by
  rw [round32_eq 74 6 9699328 (by norm_num) (by norm_num) (by norm_num) (by norm_num)
    (by norm_num) (by norm_num)]
  norm_num

theorem round32_75 : round32 75 = 75 := by
  rw [round32_eq 75 6 9830400 (by norm_num) (by norm_num) (by norm_num) (by norm_num)
    (by norm_num) (by norm_num)]
  norm_num

theorem round32_811 : round32 811 = 811 := by
  rw [round32_eq 811 9 13287424 (by norm_num) (by norm_num) (by norm_num) (by norm_num)
    (by norm_num) (by norm_num)]
  norm_num

theorem round32_section_width : round32 (811 / 50) = 8503951 / 524288 := by
  rw [round32_eq (811 / 50) 4 8503951 (by norm_num) (by norm_num) (by norm_num) (by norm_num)
    (by norm_num) (by norm_num)]
  norm_num

theorem round32_last_offset : round32 (8503951 / 524288 * 50) = 13287423 / 16384 := by
  rw [round32_eq (8503951 / 524288 * 50) 9 13287423 (by norm_num) (by norm_num) (by norm_num)
    (by norm_num) (by norm_num) (by norm_num)]
  norm_num

theorem round32_last_width : round32 (74 + 13287423 / 16384) = 14499839 / 16384 := by
  rw [round32_eq (74 + 13287423 / 16384) 9 14499839 (by norm_num) (by norm_num) (by norm_num)
    (by norm_num) (by norm_num) (by norm_num)]
  norm_num

theorem draw_x_labels_loop_f32_ticks (E : Engine) (r : Rect2) (sw sa : ℚ) :
    ∀ (k i : Nat) (cur : ℚ), i + k = X_SECTIONS + 1 →
      tick_lines (draw_x_labels_loop_f32 E r sw sa i cur) =
        (List.range' i k).map fun (j : Nat) =>
          (⟨⟨f32_add r.x (f32_mul sw (int_to_f32 (j : Int))), f32_sub r.y (f32_div MARGINS 2)⟩,
            ⟨f32_add r.x (f32_mul sw (int_to_f32 (j : Int))), r.y⟩⟩ : Line) := by
  intro k
  induction k with
  | zero =>
    intro i cur h
    rw [draw_x_labels_loop_f32]
    have hi : ¬ i ≤ X_SECTIONS := by omega
    simp [hi, tick_lines]
  | succ k ih =>
    intro i cur h
    rw [draw_x_labels_loop_f32]
    have hi : i ≤ X_SECTIONS := by omega
    have h2 := ih (i + 1) (f32_add cur sa) (by omega)
    unfold tick_lines at h2 ⊢
    simp only [hi, if_true, List.filterMap_cons, h2, List.range'_succ, List.map_cons]

theorem draw_x_labels_f32_ticks (E : Engine) (r : Rect2) :
    tick_lines (draw_x_labels_f32 E r) =
      (List.range 51).map fun (j : Nat) =>
        (⟨⟨f32_add r.x (f32_mul (f32_div (f32_sub r.w r.x) (int_to_f32 50))
              (int_to_f32 (j : Int))), f32_sub r.y (f32_div MARGINS 2)⟩,
          ⟨f32_add r.x (f32_mul (f32_div (f32_sub r.w r.x) (int_to_f32 50))
              (int_to_f32 (j : Int))), r.y⟩⟩ : Line) := by
  have h := draw_x_labels_loop_f32_ticks E r
    (f32_div (f32_sub r.w r.x) (int_to_f32 (X_SECTIONS : Int)))
    (f32_div (f32_sub MAX_X MIN_X) (int_to_f32 (X_SECTIONS : Int))) (X_SECTIONS + 1) 0 MIN_X
    (by omega)
  unfold draw_x_labels_f32
  unfold tick_lines at h ⊢
  rw [List.filterMap_append, h, List.range_eq_range']
  simp [X_SECTIONS]

/-! ## Properties -/

/-- C1: when the cached rectangle has been cleared (and the engine's comparison
finds the cleared rectangle equal to `{}`), `get_screen_rect` returns the
visible rectangle `(x, y, w, h)` turned into
`(x + M + left_pad, y + M + Title.size + 2 * M, w - M, h - M - (title_size.y + M))`,
with `M = 20`, `left_pad` the larger of the widths of `str(MAX_Y)` and
`str(MIN_Y)` in the Normal font and `title_size` the measure of the title in
the Title font. -/
theorem get_screen_rect_after_clear (E : Engine) (q : Nat)
    (h : E.is_equal_approx Rect2.zero Rect2.zero = true) :
    (get_screen_rect E ⟨Rect2.zero, q⟩).1 =
      ⟨E.visable_rect.x + 20 +
          max (E.measure_text (E.float_to_string 100) E.Normal).x
            (E.measure_text (E.float_to_string 0) E.Normal).x,
        E.visable_rect.y + 20 + E.Title.size + 2 * 20,
        E.visable_rect.w - 20,
        E.visable_rect.h - 20 - ((E.measure_text TITLE E.Title).y + 20)⟩ := by
  rw [get_screen_rect_miss E ⟨Rect2.zero, q⟩ h]
  simp only [compute_plot_rect, MARGINS, MAX_Y, MIN_Y, Rect2.mk.injEq, true_and, and_true]
  ring

/-- Witness of C1 on the sample engine: from the visible rectangle
`(0, 0, 1280, 720)` the plot rectangle is `(74, 85, 1260, 655)`. -/
theorem get_screen_rect_after_clear_witness :
    sample_engine.is_equal_approx Rect2.zero Rect2.zero = true ∧
      (get_screen_rect sample_engine ⟨Rect2.zero, 0⟩).1 = ⟨74, 85, 1260, 655⟩ := by
  have h : sample_engine.is_equal_approx Rect2.zero Rect2.zero = true := by
    simp [sample_engine]
  refine ⟨h, ?_⟩
  rw [get_screen_rect_after_clear sample_engine 0 h]
  simp only [sample_engine, TITLE, Rect2.mk.injEq]
  norm_num

/-- C2, as stated, fails on the engine whose visible rectangle makes the
derived plot rectangle equal to `(0, 0, 0, 0)`: the second call of
`get_screen_rect` recomputes again, and one run of `update` queries the
visible rectangle 305 times, once per call of `get_screen_rect`. -/
theorem update_recomputes_every_call :
    degenerate_engine.is_equal_approx Rect2.zero Rect2.zero = true ∧
      (get_screen_rect degenerate_engine ⟨Rect2.zero, 0⟩).1 = Rect2.zero ∧
      (get_screen_rect degenerate_engine
        (get_screen_rect degenerate_engine ⟨Rect2.zero, 0⟩).2).2.visable_rect_queries = 2 ∧
      (update degenerate_engine ⟨Rect2.zero, 0⟩).map (fun F => F.world.visable_rect_queries) =
        some 305 := by
  have h : degenerate_engine.is_equal_approx Rect2.zero Rect2.zero = true := by
    simp [degenerate_engine, sample_engine]
  have hc : compute_plot_rect degenerate_engine = Rect2.zero := by
    simp only [compute_plot_rect, degenerate_engine, sample_engine, MARGINS, Rect2.zero,
      Rect2.mk.injEq]
    norm_num
  have hp : plot_rect degenerate_engine Rect2.zero = Rect2.zero := by
    simp only [plot_rect, h, if_true, hc]
  have hr : recomputes degenerate_engine Rect2.zero = 1 := by
    simp only [recomputes, h, if_true]
  refine ⟨h, ?_, ?_, ?_⟩
  · rw [get_screen_rect_eq, hp]
  · simp only [get_screen_rect_eq, hp, hr]
  · simp only [update_eq, hp, hr, Option.map_some']

/-- C2, amended: when the derived plot rectangle does not compare
approximately equal to `{}` (and `{}` compares equal to itself), the first
call of `get_screen_rect` after the reset queries the visible rectangle and
stores the derived rectangle, every call on a state holding that rectangle
returns it and leaves the state as it is, and one run of `update` ends with
that rectangle cached after exactly one query of the visible rectangle. -/
theorem update_recomputes_once (E : Engine) (W : World)
    (h0 : E.is_equal_approx Rect2.zero Rect2.zero = true)
    (h1 : E.is_equal_approx (compute_plot_rect E) Rect2.zero = false) :
    get_screen_rect E ⟨Rect2.zero, W.visable_rect_queries⟩ =
        (compute_plot_rect E, ⟨compute_plot_rect E, W.visable_rect_queries + 1⟩) ∧
      (∀ W1 : World, W1.screen_rect = compute_plot_rect E →
        get_screen_rect E W1 = (compute_plot_rect E, W1)) ∧
      (update E W).map (fun F => F.world) =
        some ⟨compute_plot_rect E, W.visable_rect_queries + 1⟩ := by
  have hp : plot_rect E Rect2.zero = compute_plot_rect E := by
    simp only [plot_rect, h0, if_true]
  have hr0 : recomputes E Rect2.zero = 1 := by simp only [recomputes, h0, if_true]
  have hr1 : recomputes E (compute_plot_rect E) = 0 := by
    simp [recomputes, h1]
  refine ⟨get_screen_rect_miss E _ h0, ?_, ?_⟩
  · intro W1 hW1
    rw [get_screen_rect_hit E W1 (by rw [hW1]; exact h1), hW1]
  · simp only [update_eq, hp, hr0, hr1, Option.map_some', mul_zero, add_zero]

/-- Witness of the amended C2 on the sample engine: the derived rectangle
`(74, 85, 1260, 655)` is cached after one query. -/
theorem update_recomputes_once_witness :
    sample_engine.is_equal_approx Rect2.zero Rect2.zero = true ∧
      sample_engine.is_equal_approx (compute_plot_rect sample_engine) Rect2.zero = false ∧
      (update sample_engine ⟨Rect2.zero, 0⟩).map (fun F => F.world) =
        some ⟨compute_plot_rect sample_engine, 0 + 1⟩ := by
  have h0 : sample_engine.is_equal_approx Rect2.zero Rect2.zero = true := by
    simp [sample_engine]
  have h1 : sample_engine.is_equal_approx (compute_plot_rect sample_engine) Rect2.zero =
      false := by
    simp only [compute_plot_rect, sample_engine, MARGINS, Rect2.zero, decide_eq_false_iff_not,
      Rect2.mk.injEq]
    norm_num
  exact ⟨h0, h1, (update_recomputes_once sample_engine ⟨Rect2.zero, 0⟩ h0 h1).2.2⟩

/-- C3: with `r` the rectangle returned by `get_screen_rect`, the data point
`(0, 0)` maps to `(r.x, r.y)` and the data point `(MAX_X, MAX_Y) = (50, 100)`
maps to `(r.w, r.h)`. -/
theorem point_to_world_endpoints (E : Engine) (W : World) :
    (point_to_world E W ⟨0, 0⟩).1 =
        ⟨(get_screen_rect E W).1.x, (get_screen_rect E W).1.y⟩ ∧
      (point_to_world E W ⟨50, 100⟩).1 =
        ⟨(get_screen_rect E W).1.w, (get_screen_rect E W).1.h⟩ := by
  simp only [point_to_world_eq, get_screen_rect_eq, point_to_pixel, MAX_X, MAX_Y,
    Vector2.mk.injEq]
  refine ⟨⟨by simp, by simp⟩, ⟨?_, ?_⟩⟩
  · push_cast; ring
  · push_cast; ring

/-- C4, as stated, fails in the float32 arithmetic of the program.  The engine
with the visible rectangle `(0, 0, 905, 645)` yields the plot rectangle
`(74, 85, 885, 580)`; on it `draw_x_labels` emits 51 ticks, the first at the
abscissa `x = 74`, but the last one at `14499839 / 16384 = 884.99994`, not at
`w = 885`. -/
theorem last_x_tick_misses_w :
    (get_screen_rect narrow_engine ⟨Rect2.zero, 0⟩).1 = ⟨74, 85, 885, 580⟩ ∧
      (tick_lines (draw_x_labels_f32 narrow_engine ⟨74, 85, 885, 580⟩)).length = 51 ∧
      (tick_lines (draw_x_labels_f32 narrow_engine ⟨74, 85, 885, 580⟩))[0]? =
        some ⟨⟨74, 75⟩, ⟨74, 85⟩⟩ ∧
      (tick_lines (draw_x_labels_f32 narrow_engine ⟨74, 85, 885, 580⟩))[50]? =
        some ⟨⟨14499839 / 16384, 75⟩, ⟨14499839 / 16384, 85⟩⟩ ∧
      (14499839 / 16384 : ℚ) ≠ 885 := by
  have h0 : narrow_engine.is_equal_approx Rect2.zero Rect2.zero = true := by
    simp [narrow_engine, sample_engine]
  have e1 : f32_sub 885 74 = 811 := by
    unfold f32_sub; norm_num [round32_811]
  have e2 : int_to_f32 50 = 50 := by
    unfold int_to_f32; norm_num [round32_50]
  have e3 : f32_div 811 50 = 8503951 / 524288 := round32_section_width
  have e4 : f32_mul (8503951 / 524288) 50 = 13287423 / 16384 := round32_last_offset
  have e5 : f32_add 74 (13287423 / 16384) = 14499839 / 16384 := round32_last_width
  have e6 : int_to_f32 0 = 0 := by
    unfold int_to_f32; norm_num [round32_zero]
  have e7 : f32_mul (8503951 / 524288) 0 = 0 := by
    unfold f32_mul; norm_num [round32_zero]
  have e8 : f32_add 74 0 = 74 := by
    unfold f32_add; norm_num [round32_74]
  have e9 : f32_div MARGINS 2 = 10 := by
    unfold f32_div MARGINS; norm_num [round32_10]
  have e10 : f32_sub 85 10 = 75 := by
    unfold f32_sub; norm_num [round32_75]
  refine ⟨?_, ?_, ?_, ?_, by norm_num⟩
  · rw [get_screen_rect_miss narrow_engine ⟨Rect2.zero, 0⟩ h0]
    simp only [compute_plot_rect, narrow_engine, sample_engine, MARGINS, Rect2.mk.injEq]
    norm_num
  · rw [draw_x_labels_f32_ticks, List.length_map, List.length_range]
  · rw [draw_x_labels_f32_ticks, List.getElem?_map, List.getElem?_range (by omega)]
    simp only [Option.map_some', Nat.cast_zero, e1, e2, e3, e6, e7, e8, e9, e10]
  · rw [draw_x_labels_f32_ticks, List.getElem?_map, List.getElem?_range (by omega)]
    simp only [Option.map_some', Nat.cast_ofNat, e1, e2, e3, e4, e5, e9, e10]

/-- C4, amended: in exact rational arithmetic, with `r = (x, y, w, h)` the
rectangle returned by `get_screen_rect`, the segments drawn by `draw_y_labels`
are exactly the 21 ticks at the heights `y + i * (h - y) / 20`, `i = 0..20`,
the first at height `y` and the last at height `h`; the segments drawn by
`draw_x_labels` are exactly the 51 ticks at the abscissas
`x + i * (w - x) / 50`, `i = 0..50`, the first at `x` and the last at `w`. -/
theorem tick_segments (E : Engine) (W : World) :
    let r := (get_screen_rect E W).1
    (draw_y_labels E W).map (fun res => tick_lines res.1) =
        some ((List.range (Y_SECTIONS + 1)).map fun (i : Nat) =>
          (⟨⟨r.x - MARGINS / 2, r.y + (i : ℚ) * (r.h - r.y) / (Y_SECTIONS : ℚ)⟩,
            ⟨r.x, r.y + (i : ℚ) * (r.h - r.y) / (Y_SECTIONS : ℚ)⟩⟩ : Line)) ∧
      (draw_y_labels E W).map (fun res => (tick_lines res.1).length) = some 21 ∧
      (draw_y_labels E W).map (fun res => (tick_lines res.1)[0]?) =
        some (some ⟨⟨r.x - 10, r.y⟩, ⟨r.x, r.y⟩⟩) ∧
      (draw_y_labels E W).map (fun res => (tick_lines res.1)[20]?) =
        some (some ⟨⟨r.x - 10, r.h⟩, ⟨r.x, r.h⟩⟩) ∧
      tick_lines (draw_x_labels E W).1 =
        (List.range (X_SECTIONS + 1)).map (fun (i : Nat) =>
          (⟨⟨r.x + (i : ℚ) * (r.w - r.x) / (X_SECTIONS : ℚ), r.y - MARGINS / 2⟩,
            ⟨r.x + (i : ℚ) * (r.w - r.x) / (X_SECTIONS : ℚ), r.y⟩⟩ : Line)) ∧
      (tick_lines (draw_x_labels E W).1).length = 51 ∧
      (tick_lines (draw_x_labels E W).1)[0]? = some ⟨⟨r.x, r.y - 10⟩, ⟨r.x, r.y⟩⟩ ∧
      (tick_lines (draw_x_labels E W).1)[50]? = some ⟨⟨r.w, r.y - 10⟩, ⟨r.w, r.y⟩⟩ := by
  intro r
  have hr : r = plot_rect E W.screen_rect := get_screen_rect_fst E W
  have e20 : r.y + ((20 : ℕ) : ℚ) * (r.h - r.y) / 20 = r.h := by push_cast; ring
  have e50 : r.x + ((50 : ℕ) : ℚ) * (r.w - r.x) / 50 = r.w := by push_cast; ring
  simp only [draw_y_labels_eq, draw_x_labels_eq, Option.map_some', ← hr, y_axis_tick_lines,
    x_axis_tick_lines, List.length_map, List.length_range, List.getElem?_map]
  refine ⟨?_, trivial, ?_, ?_, ?_, trivial, ?_, ?_⟩
  · simp only [Y_SECTIONS, MARGINS]; norm_num
  · rw [List.getElem?_range (by omega)]; simp
  · rw [List.getElem?_range (by omega), Option.map_some', e20]
  · simp only [X_SECTIONS, MARGINS]; norm_num
  · rw [List.getElem?_range (by omega)]; simp
  · rw [List.getElem?_range (by omega), Option.map_some', e50]

/-- C5: the strings of the text runs of `draw_y_labels`, whose values come
from the accumulation `current_amount += section_amount`, are the closed form
`to_string((int) (MIN_Y + i * section_amount))`, that is `to_string(5 * i)`,
for `i = 0..20`; those of `draw_x_labels` are `to_string((int) (MIN_X + i *
section_amount))`, that is `to_string(i)`, for `i = 0..50`, followed by the
axis title. -/
theorem tick_labels (E : Engine) (W : World) :
    (draw_y_labels E W).map (fun res => text_labels res.1) =
        some ((List.range 21).map fun (i : Nat) => E.int_to_string (5 * (i : Int))) ∧
      ((List.range 21).map fun (i : Nat) => E.int_to_string (5 * (i : Int))) =
        ((List.range 21).map fun (i : Nat) => E.int_to_string
          (float_to_int (MIN_Y + (i : ℚ) * ((MAX_Y - MIN_Y) / (Y_SECTIONS : ℚ))))) ∧
      text_labels (draw_x_labels E W).1 =
        (List.range 51).map (fun (i : Nat) => E.int_to_string (i : Int)) ++ [X_LABEL] ∧
      ((List.range 51).map fun (i : Nat) => E.int_to_string (i : Int)) =
        ((List.range 51).map fun (i : Nat) => E.int_to_string
          (float_to_int (MIN_X + (i : ℚ) * ((MAX_X - MIN_X) / (X_SECTIONS : ℚ))))) := by
  simp only [draw_y_labels_eq, draw_x_labels_eq, Option.map_some', y_axis_text_labels,
    x_axis_text_labels, y_label_value, x_label_value, and_self]

/-- C6: for `n` points, `plot` emits `n` filled-circle calls and `n - 1`
line-segment calls and nothing else (`n + (n - 1)` calls in all) when
`n >= 1`, and no call at all when `n = 0`. -/
theorem plot_draw_counts (E : Engine) (W : World) (points : List Vector2i) (color : Color) :
    ((plot E W points color).1.filter DrawCall.isCircle).length = points.length ∧
      ((plot E W points color).1.filter DrawCall.isLine).length = points.length - 1 ∧
      (plot E W points color).1.length = points.length + (points.length - 1) ∧
      (points.length = 0 → (plot E W points color).1 = []) := by
  have h := series_counts (point_to_pixel (plot_rect E W.screen_rect)) points color
    points.length 0 (by omega)
  rw [← List.range_eq_range'] at h
  simp only [plot_eq, series_calls]
  refine ⟨h.1, h.2.1, h.2.2, ?_⟩
  intro h0
  simp [h0]

/-- C7: for a text of `k` characters, none a newline or a tab,
`draw_vertical_text` returns, having issued exactly `k` `draw_char` calls: the
`i`-th carries the `i`-th character and `char_index = i` and is placed at
`(anchor.x, anchor.y - font.size - i * font.size)`; the local `position` ends
`k * font.size` below the first glyph (and is untouched when `k = 0`, where no
call is issued). -/
theorem draw_vertical_text_glyphs (anchor : Vector2) (text : List Char) (font : Font)
    (props : TextDrawProps) (h : ∀ c ∈ text, c ≠ '\n' ∧ c ≠ '\t') :
    draw_vertical_text anchor text font props =
        some (text.enum.map (fun ic =>
            DrawCall.char props.effect ic.2 ic.1 font
              ((if props.font_size = 0 then font.size else props.font_size) / font.size)
              ⟨anchor.x, anchor.y - font.size⟩
              ⟨anchor.x, anchor.y - font.size - (ic.1 : ℚ) * font.size⟩
              ⟨props.color, props.z_index⟩),
          ⟨anchor.x, if text = [] then anchor.y
            else anchor.y - font.size - (text.length : ℚ) * font.size⟩) ∧
      (text.enum.map (fun ic =>
            DrawCall.char props.effect ic.2 ic.1 font
              ((if props.font_size = 0 then font.size else props.font_size) / font.size)
              ⟨anchor.x, anchor.y - font.size⟩
              ⟨anchor.x, anchor.y - font.size - (ic.1 : ℚ) * font.size⟩
              ⟨props.color, props.z_index⟩)).length = text.length ∧
      (text = [] → draw_vertical_text anchor text font props = some ([], anchor)) := by
  refine ⟨draw_vertical_text_eq anchor text font props h, by simp, ?_⟩
  intro ht
  simp [draw_vertical_text, ht]

/-- Witness of C7: the two glyphs of "hi" in a font of size 25, requested at
size 50 from the anchor `(20, 400)`, are placed at heights 375 and 350 (step
25, not 50), and `position` ends at height 325. -/
theorem draw_vertical_text_glyphs_witness :
    (∀ c ∈ ['h', 'i'], c ≠ '\n' ∧ c ≠ '\t') ∧
      draw_vertical_text ⟨20, 400⟩ ['h', 'i'] ⟨"jet_brains.ttf", 25⟩
          ⟨50, Color.Black, 0, 0, false⟩ =
        some ([DrawCall.char 0 'h' 0 ⟨"jet_brains.ttf", 25⟩ 2 ⟨20, 375⟩ ⟨20, 375⟩
                ⟨Color.Black, 0⟩,
              DrawCall.char 0 'i' 1 ⟨"jet_brains.ttf", 25⟩ 2 ⟨20, 375⟩ ⟨20, 350⟩
                ⟨Color.Black, 0⟩],
          ⟨20, 325⟩) := by
  have h : ∀ c ∈ ['h', 'i'], c ≠ '\n' ∧ c ≠ '\t' := by decide
  refine ⟨h, ?_⟩
  rw [(draw_vertical_text_glyphs ⟨20, 400⟩ ['h', 'i'] ⟨"jet_brains.ttf", 25⟩
    ⟨50, Color.Black, 0, 0, false⟩ h).1]
  simp [List.enum, List.enumFrom]
  norm_num

/-- C8: the calls emitted by `plot` for the points `p_0 .. p_{n-1}` are, in
order and with nothing else: for `i = 0 .. n-1`, the filled circle of radius 5
with 16 segments centred at `point_to_world(p_i)`, immediately followed, if and
only if `i < n - 1`, by the segment of thickness 2 from `point_to_world(p_i)`
to `point_to_world(p_{i+1})`, all in the given colour. -/
theorem plot_call_order (E : Engine) (W : World) (points : List Vector2i) (color : Color) :
    (plot E W points color).1 =
      (List.range points.length).flatMap fun (i : Nat) =>
        DrawCall.circle ⟨5, (point_to_world E W (points.getD i ⟨0, 0⟩)).1⟩ 16 color ::
          if i < points.length - 1 then
            [DrawCall.line ⟨(point_to_world E W (points.getD i ⟨0, 0⟩)).1,
              (point_to_world E W (points.getD (i + 1) ⟨0, 0⟩)).1⟩ 2 color]
          else [] := by
  rw [plot_calls_eq, series_calls]
  congr 1
  funext i
  have e : (i + 1 < points.length) = (i < points.length - 1) := by
    apply propext; omega
  simp only [series_step, POINT_SIZE, LINE_WIDTH, e]

/-- C9: with `W0` the state after the reset at the start of the frame and `r`
the rectangle `get_screen_rect` returns there, the calls of one run of
`update` are, in this order: the title text and the outline of `r` (the calls
of `draw_title`), the X ticks, X labels and X title (the calls of
`draw_x_labels`), the Y ticks, Y labels and the glyphs of the Y title (the
calls of `draw_y_labels`), the calls of `plot` for series A in blue, and the
calls of `plot` for series B in red. -/
theorem update_call_order (E : Engine) (W : World) :
    let W0 : World := ⟨Rect2.zero, W.visable_rect_queries⟩
    let r := (get_screen_rect E W0).1
    (update E W).map Frame.calls =
        some (title_calls E r ++ x_axis_calls E r ++ y_axis_calls E r ++
          (plot E W0 series_A Color.Blue).1 ++ (plot E W0 series_B Color.Red).1) ∧
      (draw_title E W0).1 = title_calls E r ∧
      (draw_x_labels E W0).1 = x_axis_calls E r ∧
      (draw_y_labels E W0).map Prod.fst = some (y_axis_calls E r) := by
  intro W0 r
  have hr : r = plot_rect E Rect2.zero := get_screen_rect_fst E W0
  simp only [update_eq, draw_title_eq, draw_x_labels_eq, draw_y_labels_eq, plot_eq,
    Option.map_some', W0, ← hr, and_self]

/-- C10: the `i`-th X tick (`i = 0..50`), whose label is `to_string(i)`, has
the abscissa of `point_to_world((i, v))` for every `v`; the `j`-th Y tick
(`j = 0..20`), whose label is `to_string(5 * j)`, has the height of
`point_to_world((u, 5 * j))` for every `u`. -/
theorem markers_meet_ticks (E : Engine) (W : World) (i j : Nat) (u v : Int)
    (hi : i ≤ 50) (hj : j ≤ 20) :
    ((tick_lines (draw_x_labels E W).1)[i]?).map (fun l => (l.a.x, l.b.x)) =
        some ((point_to_world E W ⟨(i : Int), v⟩).1.x,
          (point_to_world E W ⟨(i : Int), v⟩).1.x) ∧
      (text_labels (draw_x_labels E W).1)[i]? = some (E.int_to_string (i : Int)) ∧
      (draw_y_labels E W).map
          (fun res => ((tick_lines res.1)[j]?).map (fun l => (l.a.y, l.b.y))) =
        some (some ((point_to_world E W ⟨u, 5 * (j : Int)⟩).1.y,
          (point_to_world E W ⟨u, 5 * (j : Int)⟩).1.y)) ∧
      (draw_y_labels E W).map (fun res => (text_labels res.1)[j]?) =
        some (some (E.int_to_string (5 * (j : Int)))) := by
  have hi1 : i < 51 := by omega
  have hj1 : j < 21 := by omega
  have ex : ∀ r : Rect2, r.x + (i : ℚ) * (r.w - r.x) / 50 =
      r.x + (((i : Int) : ℚ)) * ((r.w - r.x) / MAX_X) := by
    intro r; simp only [MAX_X]; push_cast; ring
  have ey : ∀ r : Rect2, r.y + (j : ℚ) * (r.h - r.y) / 20 =
      r.y + (((5 * (j : Int) : Int) : ℚ)) * ((r.h - r.y) / MAX_Y) := by
    intro r; simp only [MAX_Y]; push_cast; ring
  simp only [draw_x_labels_eq, draw_y_labels_eq, Option.map_some', x_axis_tick_lines,
    y_axis_tick_lines, x_axis_text_labels, y_axis_text_labels, point_to_world_eq,
    point_to_pixel, List.getElem?_map, List.getElem?_range hi1, List.getElem?_range hj1, ex, ey,
    true_and]
  rw [List.getElem?_append_left (by simpa using hi1)]
  simp only [List.getElem?_map, List.getElem?_range hi1, Option.map_some', and_self]

/-- Witness of C10 on the sample engine, at the X tick 7 and the Y tick 3. -/
theorem markers_meet_ticks_witness :
    (7 : Nat) ≤ 50 ∧ (3 : Nat) ≤ 20 ∧
      ((tick_lines (draw_x_labels sample_engine ⟨Rect2.zero, 0⟩).1)[7]?).map
          (fun l => (l.a.x, l.b.x)) =
        some ((point_to_world sample_engine ⟨Rect2.zero, 0⟩ ⟨((7 : Nat) : Int), 64⟩).1.x,
          (point_to_world sample_engine ⟨Rect2.zero, 0⟩ ⟨((7 : Nat) : Int), 64⟩).1.x) :=
  ⟨by decide, by decide,
    (markers_meet_ticks sample_engine ⟨Rect2.zero, 0⟩ 7 3 0 64 (by decide) (by decide)).1⟩

end JPlotter
